import Mathlib

/-!
Verification development for the BB84 quantum key distribution simulation
engine (plugins/encryption_bb84/bb84.py) and its web entry point (app.py).

The Python source is embedded shallowly:

* machine floats that only ever hold exact decimal constants (noise-model
  parameters, probability thresholds, rational ratios) are modelled as
  exact rationals;
* the two genuinely transcendental float computations, the power 10 ** x
  inside create_hardware_noise_model / the Shannon-entropy bit estimate
  inside information_reconciliation, and the float result of
  calculate_theoretical_key_rate, are abstracted as oracle parameters
  (tenPow, bitsNeededInt, theoreticalKeyRate) since no claim depends on
  their numeric values;
* every call to the ambient random generator (random.random,
  random.randint, random.choice) is modelled as an explicit input stream
  indexed by bit position, so a run is a pure function of its draws;
* quantum circuits are modelled syntactically as lists of operations;
  the gate-simulator measurement of a circuit is an oracle parameter
  (the engine treats it as a black box);
* Python expressions that raise (division by zero) are modelled with
  Except, returning an error value naming the Python exception;
* Python list-cell mutation aliasing is modelled, where it matters, by a
  heap of list cells addressed by pointers.
-/

namespace BB84

/-- Encoding basis: Z is the computational (rectilinear) basis, X the
Hadamard (diagonal) basis, mirroring the string literals in bb84.py. -/
inductive Basis where
  | Z
  | X
deriving DecidableEq, Repr

/-- Syntactic circuit operations appended to a cirq.Circuit in bb84.py:
Pauli X, Hadamard, the three noise channels of add_realistic_noise with
their probability arguments, and measurement. -/
inductive Op where
  | X
  | H
  | depolarize (p : ℚ)
  | ampDamp (p : ℚ)
  | phaseDamp (p : ℚ)
  | measure
deriving DecidableEq, Repr

/-- FIBER_LOSS_DB_PER_KM = 0.2 in bb84.py. -/
def FIBER_LOSS_DB_PER_KM : ℚ := 2/10

/-- DETECTOR_EFFICIENCY = 0.85 in bb84.py. -/
def DETECTOR_EFFICIENCY : ℚ := 85/100

/-- Noise-parameter record produced by create_hardware_noise_model in
bb84.py (one dictionary per hardware class). -/
structure NoiseModel where
  photon_loss : ℚ
  polarization_drift : ℚ
  phase_drift : ℚ
  detector_efficiency : ℚ
  dark_count_probability : ℚ
  timing_jitter : ℚ
  coherence_time : ℚ
deriving DecidableEq, Repr

/-- Embedding of create_hardware_noise_model (bb84.py lines 22-64).
tenPow abstracts the float power function x fun 10 ** x used in the
photon-loss entries of the fiber and satellite models; every other field
is an exact decimal constant or a rational function of the distance.
The final line mirrors models.get(hardware_type, models['fiber']):
an unknown hardware class silently receives the fiber model. -/
def create_hardware_noise_model (tenPow : ℚ → ℚ) (hardware_type : String)
    (distance_km : ℚ) (detector_dark_count : ℚ) : NoiseModel :=
  let fiber : NoiseModel :=
    { photon_loss := 1 - tenPow (-(FIBER_LOSS_DB_PER_KM * distance_km) / 10)
      polarization_drift := min (1/100 * distance_km) (1/10)
      phase_drift := min (5/1000 * distance_km) (1/10)
      detector_efficiency := DETECTOR_EFFICIENCY
      dark_count_probability := detector_dark_count
      timing_jitter := 50/10^12 * (1 + 1/100 * distance_km)
      coherence_time := 1/10^9 }
  let satellite : NoiseModel :=
    { photon_loss := 1 - tenPow (-(7/100) * distance_km / 10)
      polarization_drift := 1/1000 * distance_km
      phase_drift := 2/1000 * distance_km
      detector_efficiency := 7/10
      dark_count_probability := 1/10^7
      timing_jitter := 100/10^12
      coherence_time := 5/10^9 }
  let trapped_ion : NoiseModel :=
    { photon_loss := 1/10
      polarization_drift := 1/1000
      phase_drift := 1/1000
      detector_efficiency := 95/100
      dark_count_probability := 1/10^8
      timing_jitter := 10/10^12
      coherence_time := 1/10^6 }
  if hardware_type = "fiber" then fiber
  else if hardware_type = "satellite" then satellite
  else if hardware_type = "trapped_ion" then trapped_ion
  else fiber

/-- Coherence error used by add_realistic_noise: min(0.05, 1e-9 / coherence_time). -/
def coherenceError (nm : NoiseModel) : ℚ :=
  min (5/100) ((1/10^9) / nm.coherence_time)

/-- Embedding of add_realistic_noise (bb84.py lines 66-87): after every
operation of the circuit, append a depolarizing channel, an amplitude
damping channel when photon loss is positive, and a phase damping
channel. -/
def add_realistic_noise (ops : List Op) (nm : NoiseModel) : List Op :=
  (ops.map (fun op =>
    [op, Op.depolarize (min (1/100) (nm.phase_drift + nm.polarization_drift))]
    ++ (if nm.photon_loss > 0 then [Op.ampDamp (min (1/10) (nm.photon_loss / 10))] else [])
    ++ [Op.phaseDamp (coherenceError nm)])).flatten

/-- Circuit built for bit i by bb84_protocol_cirq (bb84.py lines 401-459),
up to and including Bob's basis rotation: Alice's state preparation and
basis choice, then, only when an eavesdropper is present AND i < 5 AND
detailed simulation is on AND the strategy is intercept_resend, the
operations Eve appends from her own fresh draws (eveResultDraw for the
re-sent bit, eveBasisDraw for her basis), then the hardware noise pass
(detailed mode only), then Bob's basis rotation. -/
def buildCircuit (aliceBit : Nat) (aliceBasis bobBasis : Basis)
    (evePresent : Bool) (eveStrategy : String) (i : Nat) (detailed : Bool)
    (eveBasisDraw : Basis) (eveResultDraw : Nat) (nm : NoiseModel) : List Op :=
  let prep := (if aliceBit = 1 then [Op.X] else [])
    ++ (if aliceBasis = Basis.X then [Op.H] else [])
  let withEve := prep ++
    (if evePresent ∧ i < 5 ∧ detailed = true ∧ eveStrategy = "intercept_resend" then
      (if eveResultDraw = 1 then [Op.X] else [])
      ++ (if eveBasisDraw = Basis.X then [Op.H] else [])
    else [])
  let noised := if detailed then add_realistic_noise withEve nm else withEve
  noised ++ (if bobBasis = Basis.X then [Op.H] else [])

/-- Result record of simulate_eavesdropping (bb84.py lines 89-178). -/
structure EveResult where
  eve_bases : List Basis
  eve_measurements : List (Option Nat)
  modified_states : List Nat
  eve_detected : Bool
  detection_probability : ℚ
  information_leak_ratio : ℚ
deriving DecidableEq, Repr

/-- Per-bit body of the simulate_eavesdropping loop (bb84.py lines
108-155). Returns (eve measurement, modified state, detection event,
information-gain increment). measD and stateD model the two
random.randint(0, 1) draws of the bit, uD the random.random() draw
compared against the detection probability p. -/
def eveBit (strategy : String) (p : ℚ) (aliceBit : Nat)
    (aliceBasis eveBasis : Basis) (measD stateD : Nat) (uD : ℚ) :
    Option Nat × Nat × Bool × Nat :=
  if strategy = "intercept_resend" then
    if eveBasis = aliceBasis then (some aliceBit, aliceBit, false, 0)
    else (some measD, stateD, decide (uD < p), 0)
  else if strategy = "beam_splitting" then
    if eveBasis = aliceBasis then (some aliceBit, aliceBit, decide (uD < p / 3), 1)
    else (some measD, aliceBit, decide (uD < p / 3), 0)
  else if strategy = "trojan_horse" then
    (some aliceBit, aliceBit, decide (uD < p * 2), 1)
  else (none, aliceBit, false, 0)

/-- Embedding of simulate_eavesdropping (bb84.py lines 89-178). The
per-bit draws are modelled as streams: eveBaseD is Eve's random basis
choice, measD and stateD her random.randint draws, u her random.random
draws. detection_probability defaults to 0.5 at the orchestrator call
site. The information leak ratio divides the accumulated gain by
len(alice_bits); with an empty bit list and a strategy other than the
literal string none, the Python source raises ZeroDivisionError, which
is modelled as an Except error. -/
def simulate_eavesdropping (aliceBits : List Nat) (aliceBases : List Basis)
    (strategy : String) (p : ℚ) (eveBaseD : Nat → Basis)
    (measD stateD : Nat → Nat) (u : Nat → ℚ) : Except String EveResult :=
  let n := aliceBits.length
  let evBases := (List.range n).map eveBaseD
  let rows := (List.range n).map (fun i =>
    eveBit strategy p (aliceBits.getD i 0) (aliceBases.getD i Basis.Z)
      (eveBaseD i) (measD i) (stateD i) (u i))
  let gain := (rows.map (fun r => r.2.2.2)).sum
  let detections := rows.map (fun r => r.2.2.1)
  if strategy ≠ "none" ∧ n = 0 then Except.error "ZeroDivisionError"
  else
    Except.ok
      { eve_bases := evBases
        eve_measurements := rows.map (fun r => r.1)
        modified_states := rows.map (fun r => r.2.1)
        eve_detected := detections.any id
        detection_probability :=
          if detections.any id then
            ((detections.countP id : ℚ) / detections.length) else 0
        information_leak_ratio :=
          if strategy ≠ "none" then (gain : ℚ) / n else 0 }

/-- Number of disagreeing positions between two keys:
sum(1 for a, b in zip(x, y) if a != b) in the Python source, as a
structural recursion over the zipped prefix. -/
def countDiff : List Nat → List Nat → Nat
  | x :: xs, y :: ys => (if x ≠ y then 1 else 0) + countDiff xs ys
  | _, _ => 0

/-- Measured quantum bit error rate of the sifted key pair (bb84.py
lines 504-505): disagreement fraction, 0 for an empty sifted key. -/
def measuredQBER (shared bobKey : List Nat) : ℚ :=
  if shared = [] then 0 else (countDiff shared bobKey : ℚ) / shared.length

/-- Parity of the slice l[s:e] as used by the reconciliation blocks:
sum(l[s:e]) modulo 2. -/
def parityRange (l : List Nat) (s e : Nat) : Nat :=
  ((l.drop s).take (e - s)).sum % 2

/-- First absolute index j in [lo, hi) at which the two keys disagree,
mirroring the linear search with break in the reconciliation binary
search halves. -/
def firstDiff (a c : List Nat) (lo hi : Nat) : Option Nat :=
  (List.range' lo (hi - lo)).find? (fun j => decide (a.getD j 0 ≠ c.getD j 0))

/-- State threaded through the reconciliation block loop: the working
copy of Bob's key and the errors_identified counter. -/
structure BlockState where
  corrected : List Nat
  errorsIdentified : Nat
deriving DecidableEq, Repr

/-- One iteration of the CASCADE-style block loop of
information_reconciliation (bb84.py lines 211-242) for the block
[s, e): compare block parities; on mismatch either binary-search one
half for the first disagreeing position and overwrite it with the
sender's bit, or, for a single-bit block, overwrite that bit directly. -/
def correctBlock (alice : List Nat) (st : BlockState) (s e : Nat) : BlockState :=
  let c := st.corrected
  if parityRange alice s e = parityRange c s e then st
  else
    let bLen := ((c.drop s).take (e - s)).length
    if 1 < bLen then
      let mid := bLen / 2
      let range12 :=
        if parityRange alice s (s + mid) ≠ parityRange c s (s + mid)
        then (s, s + mid) else (s + mid, s + bLen)
      match firstDiff alice c range12.1 range12.2 with
      | some j => ⟨c.set j (alice.getD j 0), st.errorsIdentified + 1⟩
      | none => st
    else ⟨c.set s (alice.getD s 0), st.errorsIdentified + 1⟩

/-- Block start offsets range(0, len, blockSize) of the reconciliation
loop. -/
def blockStarts (len blockSize : Nat) : List Nat :=
  List.range' 0 ((len + blockSize - 1) / blockSize) blockSize

/-- Result record of information_reconciliation (bb84.py lines 180-254). -/
structure ReconResult where
  success : Bool
  corrected_bits : Nat
  bits_used : Nat
  remaining_error_rate : ℚ
  final_key : List Nat
deriving DecidableEq, Repr

/-- Embedding of information_reconciliation (bb84.py lines 180-254).
The error rate argument is the measured QBER handed in by the
orchestrator. bitsNeededInt abstracts int(bits_needed), the float
Shannon-entropy estimate of classical bits consumed (it never
influences the key or the error counts). Block size is
max(1, int(1 / error_rate)); the block loop works on a copy of Bob's
key and the residual error rate compares that corrected copy with the
sender key position by position. -/
def information_reconciliation (aliceKey bobKey : List Nat) (errorRate : ℚ)
    (bitsNeededInt : Nat) : ReconResult :=
  if aliceKey = [] ∨ bobKey = [] then
    { success := false, corrected_bits := 0, bits_used := 0
      remaining_error_rate := 0, final_key := [] }
  else if errorRate ≤ 0 then
    { success := true, corrected_bits := 0, bits_used := 0
      remaining_error_rate := 0, final_key := aliceKey }
  else
    let blockSize := max 1 (⌊1 / errorRate⌋.toNat)
    let st := (blockStarts aliceKey.length blockSize).foldl
      (fun st s => correctBlock aliceKey st s (min (s + blockSize) aliceKey.length))
      ⟨bobKey, 0⟩
    let remainingErrors := countDiff aliceKey st.corrected
    let remRate : ℚ := (remainingErrors : ℚ) / aliceKey.length
    { success := decide (remRate < errorRate / 10)
      corrected_bits := st.errorsIdentified
      bits_used := min aliceKey.length bitsNeededInt
      remaining_error_rate := remRate
      final_key := st.corrected }

/-- Embedding of privacy_amplification (bb84.py lines 256-287). masks
models the stream of random Toeplitz-row bit masks, one per output
bit; each output bit is the parity of the masked key. The final length
is max(1, len - int(leaked_bits) - int(security_parameter * len)); the
subsequent guard returning the empty list for a non-positive length is
kept verbatim from the source even though max(1, _) makes it
unreachable. -/
def privacy_amplification (reconciledKey : List Nat) (leakedBits : Nat)
    (securityParameter : ℚ) (masks : Nat → List Nat) : List Nat :=
  if reconciledKey = [] then []
  else
    let finalLength : Int :=
      max 1 ((reconciledKey.length : Int) - (leakedBits : Int)
        - ⌊securityParameter * (reconciledKey.length : ℚ)⌋)
    if finalLength ≤ 0 then []
    else
      (List.range finalLength.toNat).map (fun i =>
        ((reconciledKey.zip (masks i)).map (fun q => q.1 * q.2)).sum % 2)

/-- Leaked-bit estimate of the orchestrator (bb84.py lines 548-554):
the eavesdropper leak ratio times the sifted length when Eve was
simulated, else a conservative 2 x QBER x length estimate, else 0. -/
def estimatedLeakedBits (evePresent : Bool) (eveRatio : Option ℚ) (qber : ℚ)
    (sharedLen : Nat) : Nat :=
  if evePresent ∧ eveRatio.isSome then
    (⌊eveRatio.getD 0 * (sharedLen : ℚ)⌋).toNat
  else if 0 < qber then (⌊qber * (sharedLen : ℚ) * 2⌋).toNat
  else 0

/-- Sifting (bb84.py lines 496-498): indices below num_bits at which the
photon was received (bob_received_states entry present) and the two
bases agree. -/
def matching_bases_of (numBits : Nat) (received : List (Option Bool))
    (aB bB : List Basis) : List Nat :=
  (List.range numBits).filter (fun i =>
    (received.getD i none).isSome && decide (aB.getD i Basis.Z = bB.getD i Basis.Z))

/-- Alice's sifted key (bb84.py line 500): her bits at the matching
indices. -/
def shared_key_of (aliceBits : List Nat) (matching : List Nat) : List Nat :=
  matching.map (fun i => aliceBits.getD i 0)

/-- Bob's sifted key (bb84.py line 501): his measurements at the
matching indices (always present there, since lost photons are sifted
out). -/
def bob_key_of (bobMeas : List (Option Nat)) (matching : List Nat) : List Nat :=
  matching.map (fun i => (bobMeas.getD i none).getD 0)

/-- Eavesdropper detection flag (bb84.py lines 517-518): measured QBER
strictly above the fixed 0.11 threshold. -/
def eve_detected_of (shared bobKey : List Nat) : Bool :=
  decide (measuredQBER shared bobKey > 11/100)

/-- Per-bit transmission of bb84_protocol_cirq (bb84.py lines 399-493):
photon-loss draw, circuit construction (including Eve's conditional
interaction and the noise pass), dark-count draw, then either the
gate-simulator measurement oracle applied to the circuit (detailed
mode) or the closed-form classical measurement model. Returns none
exactly when the photon is lost. -/
def transmitBit (nm : NoiseModel) (detailed evePresent : Bool)
    (eveStrategy : String) (i : Nat) (aliceBit : Nat) (aB bB : Basis)
    (uLoss uDark uErr : Nat → ℚ) (darkBitD simpBitD : Nat → Nat)
    (eveBasisD : Nat → Basis) (eveResultD : Nat → Nat)
    (measOracle : Nat → List Op → Nat) : Option Nat :=
  if uLoss i < nm.photon_loss then none
  else
    let circuit := buildCircuit aliceBit aB bB evePresent eveStrategy i detailed
      (eveBasisD i) (eveResultD i) nm
    if uDark i < nm.dark_count_probability then some (darkBitD i)
    else if detailed then some (measOracle i (circuit ++ [Op.measure]))
    else if aB = bB then
      if uErr i < nm.polarization_drift + nm.phase_drift then some (1 - aliceBit)
      else some aliceBit
    else some (simpBitD i)

/-- Result record returned by bb84_protocol_cirq (bb84.py lines
568-589), minus the purely presentational circuit_svg and log fields. -/
structure ProtocolResult where
  alice_bits : List Nat
  alice_bases : List Basis
  bob_bases : List Basis
  bob_measurements : List (Option Nat)
  matching_bases : List Nat
  shared_key : List Nat
  bob_key : List Nat
  final_key : Option (List Nat)
  error_rate : ℚ
  eve_detected_by_qber : Bool
  photon_loss_rate : ℚ
  transmission_efficiency : ℚ
  sifted_key_ratio : ℚ
  final_key_ratio : ℚ
  secure_key_rate : ℚ
  eavesdropper_results : Option EveResult
  reconciliation_results : Option ReconResult
deriving DecidableEq, Repr

/-- Embedding of the bb84_protocol_cirq orchestrator (bb84.py lines
339-589). All ambient randomness is passed in as streams; tenPow,
measOracle, theoreticalKeyRate and bitsNeededInt abstract, in turn,
the float power function, the gate-simulator measurement, the float
calculate_theoretical_key_rate value and the float entropy estimate of
reconciliation. The noise_prob parameter is accepted and ignored
exactly as in the source. The transmission_efficiency field divides by
num_bits with no zero guard in the source, so the assembly step is
modelled as raising ZeroDivisionError when num_bits = 0; the
sifted_key_ratio and final_key_ratio fields carry their guards from
the source. -/
def bb84_protocol_cirq (tenPow : ℚ → ℚ) (theoreticalKeyRate : ℚ)
    (numBits : Nat) (distance_km : ℚ) (hardware_type : String)
    (evePresent : Bool) (eveStrategy : String) (detector_dark_count : ℚ)
    (detailed performReconciliation performAmplification : Bool)
    (noise_prob : ℚ)
    (aliceBitD : Nat → Nat) (aliceBaseD bobBaseD : Nat → Basis)
    (uLoss uDark uErr : Nat → ℚ) (darkBitD simpBitD : Nat → Nat)
    (eveBasisD : Nat → Basis) (eveResultD : Nat → Nat)
    (measOracle : Nat → List Op → Nat)
    (eveBaseD2 : Nat → Basis) (eveMeasD eveStateD : Nat → Nat) (eveU : Nat → ℚ)
    (masks : Nat → List Nat) (bitsNeededInt : Nat) :
    Except String ProtocolResult := do
  let nm := create_hardware_noise_model tenPow hardware_type distance_km
    detector_dark_count
  let aliceBits := (List.range numBits).map aliceBitD
  let aliceBases := (List.range numBits).map aliceBaseD
  let bobBases := (List.range numBits).map bobBaseD
  let bobMeasurements := (List.range numBits).map (fun i =>
    transmitBit nm detailed evePresent eveStrategy i (aliceBitD i)
      (aliceBaseD i) (bobBaseD i) uLoss uDark uErr darkBitD simpBitD
      eveBasisD eveResultD measOracle)
  let received : List (Option Bool) := bobMeasurements.map (fun m =>
    m.map (fun _ => true))
  let matching := matching_bases_of numBits received aliceBases bobBases
  let shared := shared_key_of aliceBits matching
  let bobKey := bob_key_of bobMeasurements matching
  let qber := measuredQBER shared bobKey
  let eveResults ← (if evePresent then
    (simulate_eavesdropping aliceBits aliceBases eveStrategy (1/2) eveBaseD2
      eveMeasD eveStateD eveU).map some
  else Except.ok none)
  let reconResults := if shared ≠ [] ∧ performReconciliation = true then
    some (information_reconciliation shared bobKey qber bitsNeededInt)
  else none
  let bobKey2 := match reconResults with
    | some r => r.final_key
    | none => bobKey
  let finalKey := if shared ≠ [] ∧ bobKey2 ≠ [] ∧ performAmplification = true then
    some (privacy_amplification bobKey2
      (estimatedLeakedBits evePresent
        (eveResults.map (fun r => r.information_leak_ratio)) qber shared.length)
      (1/10) masks)
  else none
  let _ := noise_prob
  if numBits = 0 then Except.error "ZeroDivisionError"
  else
    Except.ok
      { alice_bits := aliceBits
        alice_bases := aliceBases
        bob_bases := bobBases
        bob_measurements := bobMeasurements
        matching_bases := matching
        shared_key := shared
        bob_key := bobKey2
        final_key := finalKey
        error_rate := qber
        eve_detected_by_qber := eve_detected_of shared bobKey
        photon_loss_rate := nm.photon_loss
        transmission_efficiency :=
          ((received.length : ℚ) - (received.countP (fun o => o.isNone) : ℚ))
            / (numBits : ℚ)
        sifted_key_ratio :=
          if 0 < numBits then (shared.length : ℚ) / (numBits : ℚ) else 0
        final_key_ratio := (match finalKey with
          | some k => if k ≠ [] ∧ 0 < numBits then (k.length : ℚ) / (numBits : ℚ)
            else 0
          | none => 0)
        secure_key_rate := theoreticalKeyRate
        eavesdropper_results := eveResults
        reconciliation_results := reconResults }

/-- Select-type parameter validation of validate_parameters in app.py
(the branch for param type select): a raw value outside the declared
options raises ParameterError, otherwise the value passes through. -/
def validate_select (options : List String) (rawVal : String) :
    Except String String :=
  if rawVal ∈ options then Except.ok rawVal else Except.error "ParameterError"

/-- Options declared for the hardware_type select of the bb84 plugin in
the app.py plugin registry. -/
def bb84_hardware_options : List String := ["fiber", "satellite", "trapped_ion"]

/-- Heap of Python list objects: each cell holds the current contents of
one list, and a variable holding a list is a pointer (index) into the
heap. Used to state frame properties about in-place mutation. -/
abbrev Heap := List (List Nat)

/-- Contents of the list object at a pointer. -/
def heapRead (h : Heap) (ptr : Nat) : List Nat := h.getD ptr []

/-- Overwrite the list object at a pointer. -/
def heapWrite (h : Heap) (ptr : Nat) (v : List Nat) : Heap := h.set ptr v

/-- Heap-level version of one reconciliation block iteration: read
alice_key and the working corrected_key object from the heap, run the
block correction, and write the updated contents back into the
corrected_key cell (the only cell the Python loop assigns into). -/
def correctBlockH (aPtr cPtr : Nat) (acc : Heap × Nat) (s e : Nat) :
    Heap × Nat :=
  let st := correctBlock (heapRead acc.1 aPtr) ⟨heapRead acc.1 cPtr, acc.2⟩ s e
  (heapWrite acc.1 cPtr st.corrected, st.errorsIdentified)

/-- Heap-level embedding of information_reconciliation: alice_key and
bob_key are pointers into the heap; corrected_key = bob_key.copy()
allocates a fresh cell at the end of the heap, and every
corrected_key[index] assignment of the block loop targets that fresh
cell. Returns the final heap together with the result record. -/
def information_reconciliation_heap (h : Heap) (aPtr bPtr : Nat)
    (errorRate : ℚ) (bitsNeededInt : Nat) : Heap × ReconResult :=
  let aliceKey := heapRead h aPtr
  let bobKey := heapRead h bPtr
  if aliceKey = [] ∨ bobKey = [] then
    (h, { success := false, corrected_bits := 0, bits_used := 0
          remaining_error_rate := 0, final_key := [] })
  else if errorRate ≤ 0 then
    (h, { success := true, corrected_bits := 0, bits_used := 0
          remaining_error_rate := 0, final_key := aliceKey })
  else
    let cPtr := h.length
    let h1 := h ++ [bobKey]
    let blockSize := max 1 (⌊1 / errorRate⌋.toNat)
    let acc := (blockStarts aliceKey.length blockSize).foldl
      (fun acc s => correctBlockH aPtr cPtr acc s
        (min (s + blockSize) aliceKey.length)) (h1, 0)
    let corrected := heapRead acc.1 cPtr
    let remainingErrors := countDiff (heapRead acc.1 aPtr) corrected
    let remRate : ℚ := (remainingErrors : ℚ) / ((heapRead acc.1 aPtr).length : ℚ)
    (acc.1,
      { success := decide (remRate < errorRate / 10)
        corrected_bits := acc.2
        bits_used := min aliceKey.length bitsNeededInt
        remaining_error_rate := remRate
        final_key := corrected })

/-- Overwriting one position of the receiver key with the sender's bit
at that position never increases the number of disagreements. -/
theorem countDiff_set_le (a : List Nat) : ∀ (c : List Nat) (j : Nat),
    countDiff a (c.set j (a.getD j 0)) ≤ countDiff a c := by
  induction a with
  | nil => intro c j; simp [countDiff]
  | cons x xs ih =>
    intro c j
    cases c with
    | nil => simp [countDiff]
    | cons y ys =>
      cases j with
      | zero =>
        simp only [List.set, List.getD_cons_zero, countDiff, ne_eq,
          not_true_eq_false, if_false]
        split <;> omega
      | succ j =>
        simp only [List.set, List.getD_cons_succ, countDiff]
        exact Nat.add_le_add_left (ih ys j) _

/-- One reconciliation block iteration never increases the number of
disagreements with the sender key. -/
theorem countDiff_correctBlock_le (alice : List Nat) (st : BlockState)
    (s e : Nat) :
    countDiff alice (correctBlock alice st s e).corrected
      ≤ countDiff alice st.corrected := by
  dsimp only [correctBlock]
  split
  · exact Nat.le_refl _
  · split
    · split
      · exact countDiff_set_le alice st.corrected _
      · exact Nat.le_refl _
    · exact countDiff_set_le alice st.corrected _

/-- The whole reconciliation block loop never increases the number of
disagreements with the sender key. -/
theorem countDiff_foldl_correctBlock_le (alice : List Nat) (g : Nat → Nat)
    (starts : List Nat) : ∀ st : BlockState,
    countDiff alice
        ((starts.foldl (fun st s => correctBlock alice st s (g s)) st).corrected)
      ≤ countDiff alice st.corrected := by
  induction starts with
  | nil => intro st; exact Nat.le_refl _
  | cons s rest ih =>
    intro st
    exact Nat.le_trans (ih _) (countDiff_correctBlock_le alice st s (g s))

/-- The number of disagreements is at most the sender key length. -/
theorem countDiff_le_length_left (a : List Nat) : ∀ b : List Nat,
    countDiff a b ≤ a.length := by
  induction a with
  | nil => intro b; cases b <;> simp [countDiff]
  | cons x xs ih =>
    intro b
    cases b with
    | nil => simp [countDiff]
    | cons y ys =>
      simp only [countDiff, List.length_cons]
      have h1 : (if x ≠ y then 1 else 0) ≤ 1 := by split <;> omega
      have h2 := ih ys
      omega

/-- C1: the claim states that privacy amplification maps a non-empty
reconciled key to a key of length max(0, length - leaked - margin), in
particular to the empty key whenever leaked_bits is at least the
reconciled length. The code computes max(1, ...) instead, so on the
one-bit key [0] with leaked_bits = 1 it returns a one-bit key, not the
empty key the claim requires; the source's own guard returning [] for a
non-positive length is unreachable behind max(1, ...). -/
theorem privacy_amplification_total_leak_one_bit :
    (privacy_amplification [0] 1 (1/10) (fun _ => [0])).length = 1 := by
  norm_num [privacy_amplification]

/-- C5 counterexample: the claim states that information reconciliation
on an empty sifted key returns success; the code returns the record
with success = False for empty inputs. -/
theorem information_reconciliation_empty_not_success :
    (information_reconciliation [] [] 0 0).success = false := rfl

/-- C5 amended: for an empty sifted key, information reconciliation
returns success = false together with zero corrected bits, zero bits
consumed and an empty final key. -/
theorem information_reconciliation_empty_result (bobKey : List Nat)
    (errorRate : ℚ) (bn : Nat) :
    information_reconciliation [] bobKey errorRate bn
      = { success := false, corrected_bits := 0, bits_used := 0
          remaining_error_rate := 0, final_key := [] } := rfl

/-- C4 counterexample: the claim states that deriving the noise model
for an unknown hardware class fails with a ConfigurationError; the code
silently returns the fiber model instead, here evaluated on the unknown
class name quantum. -/
theorem unknown_hardware_silently_defaults :
    create_hardware_noise_model (fun _ => 1) "quantum" 5 (1/1000000)
      = create_hardware_noise_model (fun _ => 1) "fiber" 5 (1/1000000) := rfl

/-- C4 amended: for every hardware class outside the declared options,
create_hardware_noise_model silently falls back to the fiber model (no
ConfigurationError class exists in the code base), while the web API
entry rejects the value with a ParameterError through the select-option
validation of validate_parameters before the plugin runs. -/
theorem unknown_hardware_fallback_and_api_rejection (tenPow : ℚ → ℚ)
    (d dc : ℚ) (hw : String) (hh : hw ∉ bb84_hardware_options) :
    create_hardware_noise_model tenPow hw d dc
        = create_hardware_noise_model tenPow "fiber" d dc
    ∧ validate_select bb84_hardware_options hw
        = Except.error "ParameterError" := by
  have h1 : hw ≠ "fiber" := by
    intro h; exact hh (by rw [h]; simp [bb84_hardware_options])
  have h2 : hw ≠ "satellite" := by
    intro h; exact hh (by rw [h]; simp [bb84_hardware_options])
  have h3 : hw ≠ "trapped_ion" := by
    intro h; exact hh (by rw [h]; simp [bb84_hardware_options])
  constructor
  · simp only [create_hardware_noise_model, if_neg h1, if_neg h2, if_neg h3]
    simp
  · simp only [validate_select, if_neg hh]

/-- C4 witness: the unknown class quantum is outside the options and
gets the fiber fallback plus the API-side ParameterError. -/
theorem unknown_hardware_fallback_witness :
    create_hardware_noise_model (fun _ => 0) "quantum" 3 (1/1000)
        = create_hardware_noise_model (fun _ => 0) "fiber" 3 (1/1000)
    ∧ validate_select bb84_hardware_options "quantum"
        = Except.error "ParameterError" :=
  unknown_hardware_fallback_and_api_rejection (fun _ => 0) 3 (1/1000)
    "quantum" (by decide)

/-- C2 counterexample: the claim states that every transmitted bit is
delegated to the eavesdropper before forwarding, so that with the
random draws held fixed the receiver's per-bit outcome depends on
eve_present. For bit index 5 in detailed simulation with the
intercept_resend strategy, the circuit the receiver measures is
identical with and without the eavesdropper, so the measured state and
outcome cannot depend on eve_present there. -/
theorem eve_ignored_at_bit_five :
    buildCircuit 1 Basis.Z Basis.Z true "intercept_resend" 5 true Basis.X 1
      (create_hardware_noise_model (fun _ => 1) "fiber" 0 (1/1000000))
    = buildCircuit 1 Basis.Z Basis.Z false "intercept_resend" 5 true Basis.X 1
      (create_hardware_noise_model (fun _ => 1) "fiber" 0 (1/1000000)) := rfl

/-- C2 amended: the eavesdropper interaction modifies the transmitted
circuit only when eve_present holds AND the bit index is below 5 AND
detailed simulation is on AND the strategy is intercept_resend; for
every bit index of at least 5, or non-detailed simulation, or any other
strategy, the circuit the receiver measures is identical with and
without the eavesdropper (the separately computed simulate_eavesdropping
states are never forwarded to the receiver). -/
theorem buildCircuit_eve_independent (aliceBit : Nat) (aB bB : Basis)
    (strat : String) (i : Nat) (detailed : Bool) (eveBD : Basis)
    (eveRD : Nat) (nm : NoiseModel)
    (h : 5 ≤ i ∨ detailed = false ∨ strat ≠ "intercept_resend") :
    buildCircuit aliceBit aB bB true strat i detailed eveBD eveRD nm
      = buildCircuit aliceBit aB bB false strat i detailed eveBD eveRD nm := by
  dsimp only [buildCircuit]
  have hno : ¬(true = true ∧ i < 5 ∧ detailed = true ∧ strat = "intercept_resend") := by
    rcases h with h | h | h
    · intro hc; omega
    · intro hc; rw [h] at hc; exact Bool.false_ne_true hc.2.2.1
    · intro hc; exact h hc.2.2.2
  have hno' : ¬(false = true ∧ i < 5 ∧ detailed = true ∧ strat = "intercept_resend") := by
    intro hc; exact Bool.false_ne_true hc.1
  rw [if_neg hno, if_neg hno']

/-- C2 witness: at bit index 5 the equality of the two circuits follows
from the amended theorem. -/
theorem buildCircuit_eve_independent_witness :
    buildCircuit 0 Basis.X Basis.Z true "intercept_resend" 5 true Basis.Z 0
      (create_hardware_noise_model (fun _ => 1) "trapped_ion" 0 (1/1000000))
    = buildCircuit 0 Basis.X Basis.Z false "intercept_resend" 5 true Basis.Z 0
      (create_hardware_noise_model (fun _ => 1) "trapped_ion" 0 (1/1000000)) :=
  buildCircuit_eve_independent 0 Basis.X Basis.Z "intercept_resend" 5 true
    Basis.Z 0 _ (Or.inl (by decide))

/-- C7: the matching_bases list contains exactly the indices below
num_bits at which the photon was received and the two bases agree, in
strictly increasing order; both sifted keys have the same length as
matching_bases, which is at most num_bits. -/
theorem matching_bases_characterization (numBits : Nat)
    (received : List (Option Bool)) (aliceBits : List Nat)
    (bobMeas : List (Option Nat)) (aB bB : List Basis) :
    (∀ i, i ∈ matching_bases_of numBits received aB bB ↔
      i < numBits ∧ (received.getD i none).isSome = true
        ∧ aB.getD i Basis.Z = bB.getD i Basis.Z)
    ∧ List.Pairwise (fun a b => a < b) (matching_bases_of numBits received aB bB)
    ∧ (shared_key_of aliceBits (matching_bases_of numBits received aB bB)).length
        = (matching_bases_of numBits received aB bB).length
    ∧ (bob_key_of bobMeas (matching_bases_of numBits received aB bB)).length
        = (matching_bases_of numBits received aB bB).length
    ∧ (matching_bases_of numBits received aB bB).length ≤ numBits := by
  refine ⟨fun i => ?_, ?_, ?_, ?_, ?_⟩
  · simp [matching_bases_of, List.mem_filter, List.mem_range, and_assoc]
  · exact List.Pairwise.sublist (List.filter_sublist _)
      (List.pairwise_lt_range numBits)
  · simp [shared_key_of]
  · simp [bob_key_of]
  · calc (matching_bases_of numBits received aB bB).length
        ≤ (List.range numBits).length := List.length_filter_le _ _
      _ = numBits := List.length_range numBits

/-- C8: the measured QBER always lies in [0, 1], is 0 when no indices
are retained, and the eavesdropper-detected flag holds exactly when the
QBER strictly exceeds the fixed 0.11 threshold. -/
theorem qber_bounds_and_detection (shared bobKey : List Nat) :
    0 ≤ measuredQBER shared bobKey
    ∧ measuredQBER shared bobKey ≤ 1
    ∧ measuredQBER [] bobKey = 0
    ∧ eve_detected_of shared bobKey
        = decide (measuredQBER shared bobKey > 11/100) := by
  refine ⟨?_, ?_, rfl, rfl⟩
  · unfold measuredQBER
    split
    · exact le_refl 0
    · positivity
  · unfold measuredQBER
    split
    · exact zero_le_one
    · rename_i hne
      rw [div_le_one (by exact_mod_cast List.length_pos.mpr hne)]
      exact_mod_cast countDiff_le_length_left shared bobKey

/-- C6: for every non-empty sifted key pair of equal lengths and every
error-rate argument, the residual error rate reported by information
reconciliation (the disagreement fraction of the corrected receiver key
against the sender key) is at most the measured QBER of the input pair:
the protocol never worsens agreement. -/
theorem information_reconciliation_never_worsens (aliceKey bobKey : List Nat)
    (errorRate : ℚ) (bn : Nat) (hA : aliceKey ≠ [])
    (hLen : aliceKey.length = bobKey.length) :
    (information_reconciliation aliceKey bobKey errorRate bn).remaining_error_rate
      ≤ measuredQBER aliceKey bobKey := by
  have hB : bobKey ≠ [] := by
    intro h
    rw [h] at hLen
    exact hA (List.length_eq_zero.mp hLen)
  have hQ : measuredQBER aliceKey bobKey
      = (countDiff aliceKey bobKey : ℚ) / (aliceKey.length : ℚ) := by
    unfold measuredQBER
    rw [if_neg hA]
  have hLpos : (0 : ℚ) < (aliceKey.length : ℚ) := by
    exact_mod_cast List.length_pos.mpr hA
  dsimp only [information_reconciliation]
  rw [if_neg (by simp [hA, hB])]
  split
  · rw [hQ]
    positivity
  · rw [hQ]
    rw [div_le_div_iff_of_pos_right hLpos]
    exact_mod_cast countDiff_foldl_correctBlock_le aliceKey _ _ ⟨bobKey, 0⟩

/-- C6 witness: a concrete four-bit pair with one disagreement. -/
theorem information_reconciliation_never_worsens_witness :
    (information_reconciliation [0, 1, 0, 1] [1, 1, 0, 1] (1/4) 0).remaining_error_rate
      ≤ measuredQBER [0, 1, 0, 1] [1, 1, 0, 1] :=
  information_reconciliation_never_worsens [0, 1, 0, 1] [1, 1, 0, 1] (1/4) 0
    (by decide) (by decide)

/-- In the intercept_resend branch the information-gain counter is never
incremented. -/
theorem eveBit_intercept_gain_zero (p : ℚ) (ab : Nat) (abas ebas : Basis)
    (m s : Nat) (uD : ℚ) :
    (eveBit "intercept_resend" p ab abas ebas m s uD).2.2.2 = 0 := by
  unfold eveBit
  rw [if_pos rfl]
  split <;> rfl

/-- C9: with the intercept_resend strategy and a non-empty bit list,
simulate_eavesdropping reports an information leak ratio of exactly 0
(the gain counter is never incremented in that branch), the
orchestrator's leaked-bit estimate is therefore 0, and privacy
amplification behaves exactly as with zero leaked bits, subtracting
only the security margin. -/
theorem intercept_resend_leaks_zero (aliceBits : List Nat)
    (aliceBases : List Basis) (p : ℚ) (eveBaseD : Nat → Basis)
    (measD stateD : Nat → Nat) (u : Nat → ℚ) (qber : ℚ) (sharedLen : Nat)
    (key : List Nat) (masks : Nat → List Nat) (h : aliceBits ≠ []) :
    (simulate_eavesdropping aliceBits aliceBases "intercept_resend" p eveBaseD
        measD stateD u).map (fun r => r.information_leak_ratio) = Except.ok 0
    ∧ estimatedLeakedBits true (some 0) qber sharedLen = 0
    ∧ privacy_amplification key
        (estimatedLeakedBits true (some 0) qber sharedLen) (1/10) masks
      = privacy_amplification key 0 (1/10) masks := by
  have hleak : estimatedLeakedBits true (some 0) qber sharedLen = 0 := by
    unfold estimatedLeakedBits
    rw [if_pos ⟨rfl, rfl⟩]
    simp
  refine ⟨?_, hleak, by rw [hleak]⟩
  dsimp only [simulate_eavesdropping]
  rw [if_neg (fun hc => h (List.length_eq_zero.mp hc.2))]
  simp only [Except.map]
  rw [if_pos (by decide)]
  have hz : (List.map (fun r => ((r.2.2.2 : Nat) : ℚ))
      (List.map (fun i => eveBit "intercept_resend" p (aliceBits.getD i 0)
        (aliceBases.getD i Basis.Z) (eveBaseD i) (measD i) (stateD i) (u i))
        (List.range aliceBits.length))).sum = 0 := by
    apply List.sum_eq_zero
    intro x hx
    simp only [List.map_map, List.mem_map, Function.comp] at hx
    obtain ⟨i, _, hi⟩ := hx
    rw [← hi, eveBit_intercept_gain_zero]
    exact Nat.cast_zero
  rw [hz, zero_div]

/-- C9 witness: a concrete two-bit intercept-resend run. -/
theorem intercept_resend_leaks_zero_witness :
    (simulate_eavesdropping [1, 0] [Basis.Z, Basis.X] "intercept_resend" (1/2)
        (fun _ => Basis.Z) (fun _ => 1) (fun _ => 0) (fun _ => 0)).map
        (fun r => r.information_leak_ratio) = Except.ok 0
    ∧ estimatedLeakedBits true (some 0) (1/10) 2 = 0
    ∧ privacy_amplification [1, 0]
        (estimatedLeakedBits true (some 0) (1/10) 2) (1/10) (fun _ => [1, 1])
      = privacy_amplification [1, 0] 0 (1/10) (fun _ => [1, 1]) :=
  intercept_resend_leaks_zero [1, 0] [Basis.Z, Basis.X] (1/2)
    (fun _ => Basis.Z) (fun _ => 1) (fun _ => 0) (fun _ => 0) (1/10) 2 [1, 0]
    (fun _ => [1, 1]) (by decide)

/-- Reading a heap cell other than the one written is unchanged. -/
theorem heapRead_heapWrite_ne (h : Heap) (p q : Nat) (v : List Nat)
    (hpq : q ≠ p) : heapRead (heapWrite h p v) q = heapRead h q := by
  unfold heapRead heapWrite
  rw [List.getD_eq_getElem?_getD, List.getD_eq_getElem?_getD,
    List.getElem?_set_ne (fun he => hpq he.symm)]

/-- The reconciliation block loop writes only into the corrected_key
cell: every other heap cell reads unchanged after the fold. -/
theorem heapFold_preserves (aPtr cPtr : Nat) (g : Nat → Nat)
    (starts : List Nat) : ∀ (h : Heap) (k : Nat) (q : Nat), q ≠ cPtr →
    heapRead ((starts.foldl
        (fun acc s => correctBlockH aPtr cPtr acc s (g s)) (h, k)).1) q
      = heapRead h q := by
  induction starts with
  | nil => intro h k q _; rfl
  | cons s rest ih =>
    intro h k q hq
    simp only [List.foldl_cons]
    have step : correctBlockH aPtr cPtr (h, k) s (g s)
        = (heapWrite h cPtr
            (correctBlock (heapRead h aPtr) ⟨heapRead h cPtr, k⟩ s (g s)).corrected,
          (correctBlock (heapRead h aPtr) ⟨heapRead h cPtr, k⟩ s (g s)).errorsIdentified) := rfl
    rw [step, ih _ _ q hq]
    exact heapRead_heapWrite_ne h cPtr q _ hq

/-- C10: information reconciliation never mutates its input key lists.
In the heap model, where alice_key and bob_key are (possibly aliased)
pointers to list objects, running the reconciliation leaves the
contents of both input cells unchanged: the only cell assigned into is
the fresh copy allocated by bob_key.copy(). -/
theorem information_reconciliation_heap_frame (h : Heap) (aPtr bPtr : Nat)
    (errorRate : ℚ) (bn : Nat) (ha : aPtr < h.length) (hb : bPtr < h.length) :
    heapRead (information_reconciliation_heap h aPtr bPtr errorRate bn).1 aPtr
        = heapRead h aPtr
    ∧ heapRead (information_reconciliation_heap h aPtr bPtr errorRate bn).1 bPtr
        = heapRead h bPtr := by
  dsimp only [information_reconciliation_heap]
  split
  · exact ⟨rfl, rfl⟩
  · split
    · exact ⟨rfl, rfl⟩
    · constructor
      · rw [heapFold_preserves aPtr h.length _ _ _ _ aPtr (by omega)]
        unfold heapRead
        exact List.getD_append _ _ _ _ ha
      · rw [heapFold_preserves aPtr h.length _ _ _ _ bPtr (by omega)]
        unfold heapRead
        exact List.getD_append _ _ _ _ hb

/-- C10 witness: a concrete two-cell heap with distinct alice and bob
objects. -/
theorem information_reconciliation_heap_frame_witness :
    heapRead (information_reconciliation_heap [[0, 1, 0, 1], [1, 1, 0, 1]]
        0 1 (1/4) 0).1 0 = heapRead [[0, 1, 0, 1], [1, 1, 0, 1]] 0
    ∧ heapRead (information_reconciliation_heap [[0, 1, 0, 1], [1, 1, 0, 1]]
        0 1 (1/4) 0).1 1 = heapRead [[0, 1, 0, 1], [1, 1, 0, 1]] 1 :=
  information_reconciliation_heap_frame [[0, 1, 0, 1], [1, 1, 0, 1]] 0 1
    (1/4) 0 (by decide) (by decide)

/-- C3: the claim states that a run with num_bits = 0 raises no error
and returns a result with empty sequences and a zero secure key rate.
With num_bits = 0 every bit sequence is indeed empty, but the result
assembly divides the received-photon count by num_bits with no zero
guard when filling transmission_efficiency (unlike the guarded
sifted_key_ratio and final_key_ratio fields), so for every
configuration with no eavesdropper and arbitrary draw streams the
orchestrator raises ZeroDivisionError instead of returning. -/
theorem bb84_zero_bits_raises (tenPow : ℚ → ℚ) (kr dKm : ℚ)
    (hw strat : String) (dc : ℚ) (det pr pa : Bool) (np : ℚ)
    (aliceBitD : Nat → Nat) (aliceBaseD bobBaseD : Nat → Basis)
    (uLoss uDark uErr : Nat → ℚ) (darkBitD simpBitD : Nat → Nat)
    (eveBasisD : Nat → Basis) (eveResultD : Nat → Nat)
    (measOracle : Nat → List Op → Nat) (eveBaseD2 : Nat → Basis)
    (eveMeasD eveStateD : Nat → Nat) (eveU : Nat → ℚ)
    (masks : Nat → List Nat) (bn : Nat) :
    bb84_protocol_cirq tenPow kr 0 dKm hw false strat dc det pr pa np
      aliceBitD aliceBaseD bobBaseD uLoss uDark uErr darkBitD simpBitD
      eveBasisD eveResultD measOracle eveBaseD2 eveMeasD eveStateD eveU masks bn
      = Except.error "ZeroDivisionError" := rfl

end BB84
